import Mathlib

/-!
# The request pipeline of explore-dialogflow

A shallow embedding of `midd.go` and `main.go`.

Conventions of the embedding.

* A Go `string` is a list of characters (`Str`), a `[]byte` a list of bytes (`Bytes`).
* A handler does not receive its `http.ResponseWriter` as a value.  What it does with the
  writer is the ordered list of calls it makes on it (`Outcome.calls`); a wrapper such as
  `responseWriter` is run over those calls (`http.replay`) and what it forwards to the writer
  it embeds is again a list of calls.
* `*http.Request` is passed by state: a handler gets the request and gives back the state
  the request object is left in (`Outcome.r`).
* A handler either returns or panics (`Outcome.panic`).
* Functions of imported packages whose code is not part of the repository are either small
  models in a namespace named after the package (`strings`, `strconv`, `http`, `io`) or fields
  of `Env`.  They are taken to return: the panics of the model are those of the terminal
  handler and of the code of the repository.
* The connection of `net/http` (`http.response`) panics on a `WriteHeader` with a code
  outside 100..999 made before the header is written.  Such a call sends nothing, and the
  panic is part of the outcome of the handler that made the call.  The properties about what
  the client receives are stated for call sequences on which no call panics.
-/

namespace Dialogflow

/-- Go `string`. -/
abbrev Str := List Char

/-- Go `[]byte`. -/
abbrev Bytes := List (Fin 256)

/-! ## Models of the imported packages -/

/-- Model of `unicode.IsSpace`. -/
def unicode.IsSpace (c : Char) : Bool :=
  let n := c.toNat
  (9 ≤ n && n ≤ 13) || n == 32 || n == 0x85 || n == 0xA0 || n == 0x1680 ||
  (0x2000 ≤ n && n ≤ 0x200A) || n == 0x2028 || n == 0x2029 || n == 0x202F ||
  n == 0x205F || n == 0x3000

/-- Scanner behind `strings.Fields`: `cur` is the field being read. -/
def strings.fieldsFrom : Str → List Char → List Str
  | cur, [] => if cur.isEmpty then [] else [cur]
  | cur, c :: cs =>
    if unicode.IsSpace c then
      if cur.isEmpty then strings.fieldsFrom [] cs else cur :: strings.fieldsFrom [] cs
    else strings.fieldsFrom (cur ++ [c]) cs

/-- Model of `strings.Fields`: the maximal runs of non-space characters, in order. -/
def strings.Fields (s : Str) : List Str :=
  strings.fieldsFrom [] s

/-- Scan of `strings.Index` for a one-character separator, `i` being the position of the
head of the list. -/
def strings.indexFrom (sep : Char) : List Char → Nat → Int
  | [], _ => -1
  | c :: cs, i => if c = sep then (i : Int) else strings.indexFrom sep cs (i + 1)

/-- Model of `strings.Index(s, ",")` for a one-character separator: the position of the
first occurrence, `-1` when there is none. -/
def strings.Index (s : Str) (sep : Char) : Int :=
  strings.indexFrom sep s 0

/-- Go slice expression `s[:i]`. -/
def Str.upTo (s : Str) (i : Int) : Str :=
  s.take i.toNat

/-- Errors of `strconv`. -/
inductive strconv.NumError
  | ErrSyntax
  | ErrRange
deriving DecidableEq, Repr

/-- Digit loop of `strconv.ParseUint(s, 10, 64)`. -/
def strconv.scanDigits : Nat → List Char → Except strconv.NumError Nat
  | n, [] => .ok n
  | n, c :: cs =>
    if c.isDigit then
      let n1 := n * 10 + (c.toNat - 48)
      if n1 < 2 ^ 64 then strconv.scanDigits n1 cs else .error .ErrRange
    else .error .ErrSyntax

/-- Model of `strconv.Atoi` on a 64-bit platform. -/
def strconv.Atoi (s : Str) : Except strconv.NumError Int :=
  let neg : Bool := s.head? == some '-'
  let ds : Str := if s.head? == some '-' || s.head? == some '+' then s.tail else s
  if ds.isEmpty then .error .ErrSyntax
  else
    match strconv.scanDigits 0 ds with
    | .error e => .error e
    | .ok un =>
      if !neg && un ≥ 2 ^ 63 then .error .ErrRange
      else if neg && un > 2 ^ 63 then .error .ErrRange
      else .ok (if neg then -(un : Int) else (un : Int))

/-- Model of `validHeaderFieldByte` of `net/textproto`: the token characters of RFC 7230. -/
def http.validHeaderFieldByte (c : Char) : Bool :=
  c.isAlphanum || [33, 35, 36, 37, 38, 39, 42, 43, 45, 46, 94, 95, 96, 124, 126].contains c.toNat

/-- Letter case of a canonical header key: upper case at the start and after each dash,
lower case elsewhere. -/
def http.canonicalCase : Bool → List Char → List Char
  | _, [] => []
  | upper, c :: cs =>
    let c1 := if upper then c.toUpper else c.toLower
    c1 :: http.canonicalCase (c1 == '-') cs

/-- Model of `http.CanonicalHeaderKey`: a key with a character that is not a token
character is left as it is. -/
def http.CanonicalHeaderKey (s : Str) : Str :=
  if s.all http.validHeaderFieldByte then http.canonicalCase true s else s

/-- Model of `http.Header`, a map from canonical keys to their values. -/
abbrev http.Header := List (Str × List Str)

/-- Model of `Header.Get`: the first value stored under the canonical form of the key,
the empty string when there is none. -/
def http.Header.Get (h : http.Header) (key : Str) : Str :=
  match h.lookup (http.CanonicalHeaderKey key) with
  | some (v :: _) => v
  | _ => []

/-- Model of `Header.Set`: the values under the canonical form of the key are replaced. -/
def http.Header.Set (h : http.Header) (key value : Str) : http.Header :=
  (http.CanonicalHeaderKey key, [value]) ::
    h.filter (fun e => e.1 != http.CanonicalHeaderKey key)

/-- Request body stream: the bytes not yet read, and whether the stream ends in a read
error instead of end-of-file. -/
structure io.Reader where
  unread : Bytes
  failing : Bool
deriving DecidableEq, Repr

/-- Model of `io.ReadAll`: the bytes read, whether an error ended the read, and the drained
stream. -/
def io.ReadAll (b : io.Reader) : Bytes × Bool × io.Reader :=
  (b.unread, b.failing, { unread := [], failing := b.failing })

/-- Model of `io.NopCloser(bytes.NewBuffer(buf))`. -/
def io.NopCloser (buf : Bytes) : io.Reader :=
  { unread := buf, failing := false }

/-- Model of `*http.Request`.  `ctxLogger` is the logger carried by `r.Context()`, given by
the `request_id` bound to it; `none` when the context carries no logger. -/
structure http.Request where
  Method : Str
  Path : Str
  Host : Str
  RemoteAddr : Str
  Header : http.Header
  Body : Option io.Reader
  ctxLogger : Option Str
deriving DecidableEq, Repr

/-- Model of `Request.UserAgent`. -/
def http.Request.UserAgent (r : http.Request) : Str :=
  r.Header.Get "User-Agent".toList

/-- A call made on an `http.ResponseWriter`. -/
inductive http.Call
  | WriteHeader (code : Int)
  | Write (data : Bytes)
deriving DecidableEq, Repr

/-- The interface `http.ResponseWriter`, as far as the program uses it. -/
class http.ResponseWriter (W : Type) where
  WriteHeader : W → Int → W
  Write : W → Bytes → W

/-- One call applied to a writer. -/
def http.Call.on {W : Type} [http.ResponseWriter W] (w : W) : http.Call → W
  | .WriteHeader code => http.ResponseWriter.WriteHeader w code
  | .Write data => http.ResponseWriter.Write w data

/-- A sequence of calls applied to a writer, in order. -/
def http.replay {W : Type} [http.ResponseWriter W] (w : W) : List http.Call → W
  | [] => w
  | c :: cs => http.replay (c.on w) cs

/-- A writer that only records the calls it receives. -/
structure http.Recorder where
  calls : List http.Call
deriving DecidableEq, Repr

instance : http.ResponseWriter http.Recorder where
  WriteHeader w code := { calls := w.calls ++ [.WriteHeader code] }
  Write w data := { calls := w.calls ++ [.Write data] }

/-- Model of the writer of `net/http` that talks to the client (`*response`): `status` is
the status line of the response once its header is written, `interim` the informational
responses sent before it, `rejected` the codes of the `WriteHeader` calls that panicked. -/
structure http.response where
  status : Option Int
  interim : List Int
  rejected : List Int
  body : Bytes
deriving DecidableEq, Repr

/-- Model of `(*response).WriteHeader`.  Once the header is written the call is superfluous
and ignored.  Before that, a code outside 100..999 makes the call panic
(`checkWriteHeaderCode`) with nothing sent, a code in 100..199 other than 101 is sent as an
informational response and leaves the header unwritten, and any other code is written as
the status of the response. -/
def http.response.WriteHeader (w : http.response) (code : Int) : http.response :=
  if w.status.isSome then w
  else if code < 100 ∨ code > 999 then { w with rejected := w.rejected ++ [code] }
  else if 100 ≤ code ∧ code ≤ 199 ∧ code ≠ 101 then { w with interim := w.interim ++ [code] }
  else { w with status := some code }

/-- Model of `(*response).Write`: the header is written with the status 200 when it was
not written yet. -/
def http.response.Write (w : http.response) (data : Bytes) : http.response :=
  { w with status := if w.status.isSome then w.status else some 200,
           body := w.body ++ data }

instance : http.ResponseWriter http.response where
  WriteHeader := http.response.WriteHeader
  Write := http.response.Write

/-- A connection on which nothing has been sent. -/
def http.response.fresh : http.response :=
  { status := none, interim := [], rejected := [], body := [] }

/-- The status code the client receives when the given calls were made on the connection
and the handler of the server returned: the status written by the calls, 200 when the
header was not written.  A `WriteHeader` call that panics sends nothing; its panic belongs
to the outcome of the handler that made the call. -/
def http.sentStatus (calls : List http.Call) : Int :=
  (http.replay http.response.fresh calls).status.getD 200

/-- A status code that `WriteHeader` writes as the status of the response: 101, or a code
in 200..999. -/
def http.finalCode (code : Int) : Prop :=
  code = 101 ∨ (200 ≤ code ∧ code ≤ 999)

/-- A status code that `WriteHeader` sends as an informational response: a code in
100..199 other than 101. -/
def http.informationalCode (code : Int) : Prop :=
  100 ≤ code ∧ code ≤ 199 ∧ code ≠ 101

/-- The `Write` calls among the calls, in order. -/
def http.writesOf : List http.Call → List http.Call
  | [] => []
  | .WriteHeader _ :: cs => http.writesOf cs
  | .Write data :: cs => .Write data :: http.writesOf cs

/-- The code of the first `WriteHeader` among the calls. -/
def http.firstWriteHeader : List http.Call → Option Int
  | [] => none
  | .WriteHeader code :: _ => some code
  | .Write _ :: cs => http.firstWriteHeader cs

/-- The struct `DialogFlowWebhookResponse`. -/
structure DialogFlowWebhookResponse where
  Name : Str
  LanguageCode : Str
  ParamName : Str
deriving DecidableEq, Repr

/-- Behaviour of the imported packages that the program only calls. -/
structure Env where
  /-- Whether `net.ParseIP(s)` is not nil. -/
  parseIP : Str → Bool
  /-- Whether `json.Unmarshal(data, &js)` into a map succeeds. -/
  jsonObject : Bytes → Bool
  /-- The output of `json.Compact`, `none` when it fails. -/
  jsonCompact : Bytes → Option Str
  /-- The conversion `string(data)`. -/
  stringOf : Bytes → Str
  /-- The value of `uuid.NewString()` for this request. -/
  newUUID : Str
  /-- The value of `time.Since(start).Nanoseconds()` for this request. -/
  elapsedNanos : Nat
  /-- The fields `queryText` and `displayName` that `json.Decode` reads from the body,
  or the message of its error. -/
  decodeRequest : Bytes → Except Str (Str × Str)
  /-- The conversion `[]byte(s)`. -/
  bytesOf : Str → Bytes
  /-- The output of `json.Marshal` on a response. -/
  jsonMarshal : DialogFlowWebhookResponse → Bytes

/-! ## midd.go -/

/-- Severity of a log entry (`zerolog.Level`). -/
inductive Level
  | DebugLevel
  | InfoLevel
  | WarnLevel
  | ErrorLevel
deriving DecidableEq, Repr

/-- The struct `logFields`.  `Latency` is kept in hundredths of a millisecond, the integer
`time.Since(start).Nanoseconds()/1e4` that the source divides by `100.0`. -/
structure logFields where
  RemoteIP : Str
  Host : Str
  UserAgent : Str
  Method : Str
  Path : Str
  Body : Str
  StatusCode : Int
  Latency : Nat
deriving DecidableEq, Repr

/-- An entry written to the log sink. -/
structure LogEntry where
  level : Level
  requestID : Str
  msg : Str
  err : Option Str
  stack : Bool
  fields : Option logFields
deriving DecidableEq, Repr

/-- A value passed to `panic`. -/
inductive PanicValue
  | ErrAbortHandler
  | error (msg : Str)
  | value (text : Str)
deriving DecidableEq, Repr

/-- The error that `recoverHandler` logs for a recovered value: the value itself when it is
an error, `fmt.Errorf` of it otherwise. -/
def PanicValue.errorText : PanicValue → Str
  | .ErrAbortHandler => "net/http: abort Handler".toList
  | .error msg => msg
  | .value text => text

/-- What a call of `ServeHTTP` did: the calls made on the writer, the state the request
object is left in, the log entries emitted, and the panic it ended in, if any. -/
structure Outcome where
  calls : List http.Call
  r : http.Request
  log : List LogEntry
  panic : Option PanicValue
deriving DecidableEq, Repr

/-- An `http.Handler`. -/
abbrev Handler := http.Request → Outcome

/-- The type `Middleware`. -/
abbrev Middleware := Handler → Handler

/-- The function `chainMiddleware`: the loop `h = middleware(h)` over the list. -/
def chainMiddleware {H : Type} (h : H) : List (H → H) → H
  | [] => h
  | middleware :: rest => chainMiddleware (middleware h) rest

/-- The struct `responseWriter`, over the writer it embeds. -/
structure responseWriter (W : Type) where
  ResponseWriter : W
  status : Int
  wroteHeader : Bool
deriving DecidableEq, Repr

/-- The function `wrapResponseWriter`. -/
def wrapResponseWriter {W : Type} (w : W) : responseWriter W :=
  { ResponseWriter := w, status := 0, wroteHeader := false }

/-- The method `Status`. -/
def responseWriter.Status {W : Type} (rw : responseWriter W) : Int :=
  rw.status

/-- The method `WriteHeader`. -/
def responseWriter.WriteHeader {W : Type} [http.ResponseWriter W]
    (rw : responseWriter W) (code : Int) : responseWriter W :=
  if !rw.wroteHeader then
    { ResponseWriter := http.ResponseWriter.WriteHeader rw.ResponseWriter code,
      status := code,
      wroteHeader := true }
  else rw

/-- The method `Write`, promoted from the embedded writer: `responseWriter` does not
define one. -/
def responseWriter.Write {W : Type} [http.ResponseWriter W]
    (rw : responseWriter W) (data : Bytes) : responseWriter W :=
  { rw with ResponseWriter := http.ResponseWriter.Write rw.ResponseWriter data }

instance {W : Type} [http.ResponseWriter W] : http.ResponseWriter (responseWriter W) where
  WriteHeader := responseWriter.WriteHeader
  Write := responseWriter.Write

/-- The function `logSeverity`. -/
def logSeverity (statusCode : Int) : Level :=
  if statusCode ≥ 500 then Level.ErrorLevel
  else if statusCode ≥ 400 then Level.ErrorLevel
  else if statusCode ≥ 300 then Level.WarnLevel
  else if statusCode ≥ 200 then Level.InfoLevel
  else Level.DebugLevel

/-- Model of `log.Ctx(r.Context())...Msg(...)`: the entry is written by the logger that the
context carries, with its `request_id`; a context without a logger gives the disabled logger,
which writes nothing. -/
def logCtx (r : http.Request) (entry : Str → LogEntry) : List LogEntry :=
  match r.ctxLogger with
  | some requestID => [entry requestID]
  | none => []

/-- The function `formatReqBody`: the text for the log record, and the entries it logs
itself. -/
def formatReqBody (env : Env) (r : http.Request) (data : Bytes) : Str × List LogEntry :=
  if !env.jsonObject data then (env.stringOf data, [])
  else
    match env.jsonCompact data with
    | none =>
      ([], logCtx r (fun requestID =>
        { level := Level.ErrorLevel, requestID := requestID,
          msg := "error compacting body request json: %s".toList,
          err := none, stack := false, fields := none }))
    | some result => (result, [])

/-- The function `realIP`. -/
def realIP (env : Env) (r : http.Request) : Str :=
  let trueClientIP := http.CanonicalHeaderKey "True-Client-IP".toList
  let xForwardedFor := http.CanonicalHeaderKey "X-Forwarded-For".toList
  let xRealIP := http.CanonicalHeaderKey "X-Real-IP".toList
  let ip : Str :=
    if r.Header.Get trueClientIP ≠ [] then r.Header.Get trueClientIP
    else if r.Header.Get xRealIP ≠ [] then r.Header.Get xRealIP
    else if r.Header.Get xForwardedFor ≠ [] then
      let xff := r.Header.Get xForwardedFor
      let i := strings.Index xff ','
      let i := if i == -1 then (xff.length : Int) else i
      Str.upTo xff i
    else []
  if ip = [] || !env.parseIP ip then [] else ip

/-- The function `realIPHandler`. -/
def realIPHandler (env : Env) (next : Handler) : Handler := fun r =>
  let rip := realIP env r
  let r := if rip ≠ [] then { r with RemoteAddr := rip } else r
  next r

/-- The function `recoverHandler`.  The deferred function runs when `next` has panicked:
the abort value is raised again, any other value is logged and answered with 500. -/
def recoverHandler (next : Handler) : Handler := fun r =>
  let out := next r
  match out.panic with
  | none => out
  | some rvr =>
    if rvr = PanicValue.ErrAbortHandler then out
    else
      { calls := out.calls ++ [http.Call.WriteHeader 500],
        r := out.r,
        log := out.log ++ logCtx r (fun requestID =>
          { level := Level.ErrorLevel, requestID := requestID,
            msg := "panic recover".toList,
            err := some rvr.errorText, stack := true, fields := none }),
        panic := none }

/-- The function `requestIDHandler`.  `r.WithContext` makes a copy of the request that
shares the header map with the original; the copy goes to `next`. -/
def requestIDHandler (env : Env) (next : Handler) : Handler := fun r =>
  let requestIDHeader := "X-Request-Id".toList
  let r :=
    if r.Header.Get requestIDHeader = [] then
      { r with Header := r.Header.Set requestIDHeader env.newUUID }
    else r
  let out := next { r with ctxLogger := some (r.Header.Get requestIDHeader) }
  { out with r := { r with Header := out.r.Header } }

/-- The test `filter != nil && filter(w, r)` of `loggerHandler`.  The filter of this
program reads the request only. -/
def bypassed (filter : Option (http.Request → Bool)) (r : http.Request) : Bool :=
  match filter with
  | some f => f r
  | none => false

/-- The body capture of `loggerHandler`: `buf`, and the request with its body replaced by
a reader over `buf`.  The error of `io.ReadAll` is dropped, as in the source. -/
def captureBody (r : http.Request) : Bytes × http.Request :=
  match r.Body with
  | some body =>
    let buf := (io.ReadAll body).1
    (buf, { r with Body := some (io.NopCloser buf) })
  | none => ([], r)

/-- The function `loggerHandler`.  The writer `ww` handed to `next` is a fresh
`responseWriter`; the calls `next` makes are run on it, what it forwards are the calls
this handler makes on its own writer.  A panic of `next` skips the rest of the body. -/
def loggerHandler (env : Env) (filter : Option (http.Request → Bool)) (next : Handler) :
    Handler := fun r =>
  if bypassed filter r then next r
  else
    let buf := (captureBody r).1
    let r := (captureBody r).2
    let out := next r
    let ww := http.replay (wrapResponseWriter (http.Recorder.mk [])) out.calls
    match out.panic with
    | some rvr =>
      { calls := ww.ResponseWriter.calls, r := out.r, log := out.log, panic := some rvr }
    | none =>
      let dur := env.elapsedNanos / 10000
      let body := formatReqBody env r buf
      let fields : logFields :=
        { RemoteIP := out.r.RemoteAddr,
          Host := out.r.Host,
          UserAgent := out.r.UserAgent,
          Method := out.r.Method,
          Path := out.r.Path,
          Body := body.1,
          StatusCode := ww.Status,
          Latency := dur }
      let sev := logSeverity ww.Status
      { calls := ww.ResponseWriter.calls,
        r := out.r,
        log := out.log ++ body.2 ++ logCtx r (fun requestID =>
          { level := sev, requestID := requestID, msg := "http request".toList,
            err := none, stack := false, fields := some fields }),
        panic := none }

/-! ## main.go -/

/-- The constant `KomplainPesanan`. -/
def KomplainPesanan : Str := "1komplain-pesanan-sent-intent".toList

/-- The constant `KonfirmasiPesanan`. -/
def KonfirmasiPesanan : Str := "2konfirmasi-pesanan-sent-intent".toList

/-- The constant `KomplainPesananFallback`. -/
def KomplainPesananFallback : Str := "1komplain-pesanan-fallback-intent".toList

/-- The constant `KonfirmasiPesananFallback`. -/
def KonfirmasiPesananFallback : Str := "2konfirmasi-pesanan-fallback-intent".toList

/-- The struct `Pesanan`. -/
structure Pesanan where
  ID : Int
  Nama : Str
deriving DecidableEq, Repr

/-- An index expression `parts[i]`: a run-time panic when `i` is out of range. -/
def indexParts (parts : List Str) (i : Nat) : Except PanicValue Str :=
  match parts[i]? with
  | some s => .ok s
  | none => .error (PanicValue.error "runtime error: index out of range".toList)

/-- The error of `extractCustomerData` on a string that has not the expected format. -/
def invalidDataFormat : Str := "invalid data format".toList

/-- The function `extractCustomerData`.  The result is the triple the function returns (the
error is `none` for `nil`), or the panic it ends in. -/
def extractCustomerData (data : Str) : Except PanicValue (Int × Str × Option Str) := do
  let parts := strings.Fields data
  if parts.length < 4 then return (0, [], some invalidDataFormat)
  if (← indexParts parts 0) ≠ "Nomor".toList then return (0, [], some invalidDataFormat)
  if (← indexParts parts 1) ≠ "ID:".toList then return (0, [], some invalidDataFormat)
  if (← indexParts parts 3) ≠ "Nama:".toList then return (0, [], some invalidDataFormat)
  let idStr ← indexParts parts 2
  match strconv.Atoi idStr with
  | .error _ => return (0, [], some "strconv.Atoi: parsing error".toList)
  | .ok id =>
    let nama ← indexParts parts 4
    return (id, nama, none)

/-- The orders known to `processIntent`. -/
def pesanans : List Pesanan :=
  [{ ID := 1234, Nama := "Joko".toList },
   { ID := 4567, Nama := "Budi".toList },
   { ID := 6789, Nama := "Susi".toList }]

/-- The function `processIntent`: the response and the log entries emitted (format
arguments of the messages are left out), or the panic of `extractCustomerData`. -/
def processIntent (r : http.Request) (data : Str) (intent : Str) :
    Except PanicValue (DialogFlowWebhookResponse × List LogEntry) := do
  let fallbackIntentName : Str :=
    if intent = KomplainPesanan then KomplainPesananFallback
    else if intent = KonfirmasiPesanan then KonfirmasiPesananFallback
    else []
  let (customerID, customerName, err) ← extractCustomerData data
  if err.isSome then
    return ({ Name := fallbackIntentName, LanguageCode := "en-US".toList, ParamName := [] },
      logCtx r (fun requestID =>
        { level := Level.ErrorLevel, requestID := requestID,
          msg := "Failed to extract customer data: %v".toList,
          err := none, stack := false, fields := none }))
  let exist : Bool := pesanans.any (fun pesanan =>
    (intent = KomplainPesanan || intent = KonfirmasiPesanan) &&
      pesanan.ID == customerID && pesanan.Nama == customerName)
  if !exist then
    return ({ Name := fallbackIntentName, LanguageCode := "en-US".toList, ParamName := [] },
      logCtx r (fun requestID =>
        { level := Level.ErrorLevel, requestID := requestID,
          msg := "Customer data not available for ID: %d, Name: %s".toList,
          err := none, stack := false, fields := none }) ++
      logCtx r (fun requestID =>
        { level := Level.DebugLevel, requestID := requestID,
          msg := "Response: %s".toList,
          err := none, stack := false, fields := none }))
  return ({ Name := "handover-intent".toList, LanguageCode := "en-US".toList, ParamName := [] },
    [])

/-- The function `dialogflowWebhookHandler`.  The decoder is taken to read the whole
body; `http.Error` is the header 400 followed by the message and a newline. -/
def dialogflowWebhookHandler (env : Env) : Handler := fun r =>
  let data : Bytes :=
    match r.Body with
    | some body => (io.ReadAll body).1
    | none => []
  let r1 : http.Request :=
    match r.Body with
    | some body => { r with Body := some (io.ReadAll body).2.2 }
    | none => r
  match env.decodeRequest data with
  | .error msg =>
    { calls := [http.Call.WriteHeader 400, http.Call.Write (env.bytesOf (msg ++ [Char.ofNat 10]))],
      r := r1, log := [], panic := none }
  | .ok (queryText, intent) =>
    match processIntent r queryText intent with
    | .error rvr => { calls := [], r := r1, log := [], panic := some rvr }
    | .ok (fulfillmentResp, entries) =>
      { calls := [http.Call.WriteHeader 200, http.Call.Write (env.jsonMarshal fulfillmentResp)],
        r := r1,
        log := entries ++ logCtx r (fun requestID =>
          { level := Level.DebugLevel, requestID := requestID,
            msg := "FullfilmentResp: %s".toList,
            err := none, stack := false, fields := none }),
        panic := none }

/-- The function `healthcheckHandler`. -/
def healthcheckHandler : Handler := fun r =>
  { calls := [http.Call.Write [111, 107]], r := r, log := [], panic := none }

/-- The filter that `main` gives to `loggerHandler`. -/
def mainFilter (r : http.Request) : Bool :=
  r.Path == "/".toList

/-- The handler `h` that `main` builds around the router `r`. -/
def mainHandler (env : Env) (r : Handler) : Handler :=
  chainMiddleware r
    [recoverHandler, loggerHandler env (some mainFilter), realIPHandler env,
     requestIDHandler env]

/-! ## Definitions used to state the properties -/

/-- The nesting `m1(m2(...(mn(h))...))` of the specification: the first of the list is the
outermost. -/
def nestInListOrder {H : Type} (h : H) : List (H → H) → H
  | [] => h
  | m :: ms => m (nestInListOrder h ms)

/-- The candidate of the specification: the first of `True-Client-IP`, `X-Real-IP`,
`X-Forwarded-For` that is present and non-empty, for the last one cut before its first
comma. -/
def clientIPCandidate (r : http.Request) : Option Str :=
  if r.Header.Get "True-Client-IP".toList ≠ [] then some (r.Header.Get "True-Client-IP".toList)
  else if r.Header.Get "X-Real-IP".toList ≠ [] then some (r.Header.Get "X-Real-IP".toList)
  else if r.Header.Get "X-Forwarded-For".toList ≠ [] then
    some ((r.Header.Get "X-Forwarded-For".toList).takeWhile (fun c => c != ','))
  else none

/-- The resolution of the specification's data model: the three candidates are tried in
priority order and the first one that is a valid IP literal wins. -/
def firstValidIP (env : Env) (r : http.Request) : Str :=
  ([r.Header.Get "True-Client-IP".toList, r.Header.Get "X-Real-IP".toList,
    (r.Header.Get "X-Forwarded-For".toList).takeWhile (fun c => c != ',')].find?
      (fun ip => ip != [] && env.parseIP ip)).getD []

/-- The `logFields` of the entries of a log, in order. -/
def accessRecords (log : List LogEntry) : List logFields :=
  log.filterMap (fun e => e.fields)

/-- The calls that the `responseWriter` of `loggerHandler` forwards to the writer it
embeds when the next stage makes the given calls on it. -/
def forwarded (calls : List http.Call) : List http.Call :=
  (http.replay (wrapResponseWriter (http.Recorder.mk [])) calls).ResponseWriter.calls

/-! ## Concrete inputs -/

/-- A field of a dotted-decimal IPv4 literal: one to three digits, no leading zero, at
most 255. -/
def isIPv4Field (f : Str) : Bool :=
  !f.isEmpty && f.all Char.isDigit && f.length ≤ 3 &&
    (f.length == 1 || f.head? != some '0') &&
    (match strconv.scanDigits 0 f with
     | .ok n => n ≤ 255
     | .error _ => false)

/-- The fields between the dots of a string. -/
def splitDots : Str → List Char → List Str
  | cur, [] => [cur]
  | cur, c :: cs => if c == '.' then cur :: splitDots [] cs else splitDots (cur ++ [c]) cs

/-- Dotted-decimal IPv4 literals, the part of `net.ParseIP` used on concrete inputs. -/
def isIPv4 (s : Str) : Bool :=
  (splitDots [] s).length == 4 && (splitDots [] s).all isIPv4Field

/-- An environment for concrete inputs: only dotted-decimal IPv4 literals parse as IP,
no body is a JSON object, and every body decodes to the query text
`Nomor ID: 1234 Nama:` with the intent `KomplainPesanan`. -/
def sampleEnv : Env :=
  { parseIP := isIPv4,
    jsonObject := fun _ => false,
    jsonCompact := fun _ => none,
    stringOf := fun data => data.map (fun b => Char.ofNat b.val),
    newUUID := "7d444840-9dc0-11d1-b245-5ffdce74fad2".toList,
    elapsedNanos := 1234567,
    decodeRequest := fun _ => .ok ("Nomor ID: 1234 Nama:".toList, KomplainPesanan),
    bytesOf := fun s => s.map (fun c => Fin.ofNat c.toNat),
    jsonMarshal := fun _ => [123, 125] }

/-- A request as the server hands it to the handler of `main`: no logger in its context. -/
def sampleRequest : http.Request :=
  { Method := "POST".toList,
    Path := "/wh/dialogflow".toList,
    Host := "example.org".toList,
    RemoteAddr := "10.0.0.1:5000".toList,
    Header := [],
    Body := some { unread := [123, 125], failing := false },
    ctxLogger := none }

/-- A request as a stage inside `requestIDHandler` sees it: its context carries a logger. -/
def tracedRequest : http.Request :=
  { sampleRequest with
    Method := "GET".toList, Path := "/status".toList, ctxLogger := some "id-1".toList }

/-- A terminal handler that panics at once with the value `boom`. -/
def panicking : Handler := fun r =>
  { calls := [], r := r, log := [], panic := some (PanicValue.value "boom".toList) }

/-- A terminal handler that writes the header 200 and then panics with the value `boom`. -/
def headerThenPanic : Handler := fun r =>
  { calls := [http.Call.WriteHeader 200], r := r, log := [],
    panic := some (PanicValue.value "boom".toList) }

/-- A terminal handler that answers 404. -/
def notFound : Handler := fun r =>
  { calls := [http.Call.WriteHeader 404, http.Call.Write [52, 48, 52]], r := r, log := [],
    panic := none }

/-- A terminal handler that reads its whole body and writes it back. -/
def echoBody : Handler := fun r =>
  match r.Body with
  | some body =>
    { calls := [http.Call.Write (io.ReadAll body).1],
      r := { r with Body := some (io.ReadAll body).2.2 }, log := [], panic := none }
  | none => { calls := [], r := r, log := [], panic := none }

/-- The header set of a request that carries the given headers. -/
def headersOf (kvs : List (Str × Str)) : http.Header :=
  kvs.foldl (fun h kv => h.Set kv.1 kv.2) []

/-! ## Properties of `chainMiddleware` -/

theorem nestInListOrder_append {H : Type} (h : H) (ms : List (H → H)) (m : H → H) :
    nestInListOrder h (ms ++ [m]) = nestInListOrder (m h) ms := by
  induction ms with
  | nil => rfl
  | cons m1 ms ih =>
    show m1 (nestInListOrder h (ms ++ [m])) = m1 (nestInListOrder (m h) ms)
    rw [ih]

/-- C1, as the code has it: `chainMiddleware(h, m1, ..., mn)` equals
`mn(...(m2(m1(h)))...)`, the nesting of the reversed list.  The first listed middleware is
the one directly around `h`, the last listed is the outermost; for the empty list the result
is `h`. -/
theorem chainMiddleware_eq_nest_reverse {H : Type} (h : H) (ms : List (H → H)) :
    chainMiddleware h ms = nestInListOrder h ms.reverse ∧
      chainMiddleware h ([] : List (H → H)) = h := by
  refine ⟨?_, rfl⟩
  induction ms generalizing h with
  | nil => rfl
  | cons m ms ih =>
    rw [List.reverse_cons, nestInListOrder_append, chainMiddleware]
    exact ih (m h)

/-- C1 as stated fails: with the list `[recoverHandler, loggerHandler]` around a
panicking handler the code gives `loggerHandler(recoverHandler(h))`, which logs the recovery
and then the access record, and not `recoverHandler(loggerHandler(h))`, in which the panic
passes through the logger and only the recovery is logged. -/
theorem chainMiddleware_not_list_order :
    (chainMiddleware panicking [recoverHandler, loggerHandler sampleEnv none]
        tracedRequest).log.map (fun e => e.msg) =
      ["panic recover".toList, "http request".toList] ∧
    (nestInListOrder panicking [recoverHandler, loggerHandler sampleEnv none]
        tracedRequest).log.map (fun e => e.msg) =
      ["panic recover".toList] ∧
    chainMiddleware panicking [recoverHandler, loggerHandler sampleEnv none] tracedRequest ≠
      nestInListOrder panicking [recoverHandler, loggerHandler sampleEnv none]
        tracedRequest := by
  decide

/-! ## Properties of `responseWriter` -/

theorem responseWriter_WriteHeader_wrote {W : Type} [http.ResponseWriter W]
    (inner : W) (status code : Int) :
    (responseWriter.mk inner status true).WriteHeader code = responseWriter.mk inner status true := by
  simp [responseWriter.WriteHeader]

theorem replay_append {W : Type} [http.ResponseWriter W] (w : W) (xs ys : List http.Call) :
    http.replay w (xs ++ ys) = http.replay (http.replay w xs) ys := by
  induction xs generalizing w with
  | nil => rfl
  | cons x xs ih =>
    show http.replay (x.on w) (xs ++ ys) = http.replay (http.replay (x.on w) xs) ys
    exact ih _

theorem replay_wrote_status {W : Type} [http.ResponseWriter W] (calls : List http.Call)
    (inner : W) (status : Int) :
    (http.replay (responseWriter.mk inner status true) calls).status = status ∧
      (http.replay (responseWriter.mk inner status true) calls).wroteHeader = true := by
  induction calls generalizing inner with
  | nil => exact ⟨rfl, rfl⟩
  | cons c cs ih =>
    cases c with
    | WriteHeader code =>
      simp only [http.replay, http.Call.on, http.ResponseWriter.WriteHeader,
        responseWriter_WriteHeader_wrote]
      exact ih inner
    | Write data =>
      simp only [http.replay, http.Call.on, http.ResponseWriter.Write, responseWriter.Write]
      exact ih _

theorem replay_wrap_status {W : Type} [http.ResponseWriter W] (calls : List http.Call)
    (inner : W) :
    (http.replay (responseWriter.mk inner 0 false) calls).status =
      (http.firstWriteHeader calls).getD 0 := by
  induction calls generalizing inner with
  | nil => rfl
  | cons c cs ih =>
    cases c with
    | WriteHeader code =>
      simp only [http.replay, http.Call.on, http.ResponseWriter.WriteHeader,
        responseWriter.WriteHeader, http.firstWriteHeader, Option.getD_some]
      exact (replay_wrote_status cs _ code).1
    | Write data =>
      simp only [http.replay, http.Call.on, http.ResponseWriter.Write, responseWriter.Write,
        http.firstWriteHeader]
      exact ih _

theorem replay_WriteHeaders_wrote {W : Type} [http.ResponseWriter W] (codes : List Int)
    (inner : W) (status : Int) :
    http.replay (responseWriter.mk inner status true) (codes.map http.Call.WriteHeader) =
      responseWriter.mk inner status true := by
  induction codes with
  | nil => rfl
  | cons c cs ih =>
    simp only [List.map_cons, http.replay, http.Call.on, http.ResponseWriter.WriteHeader,
      responseWriter_WriteHeader_wrote]
    exact ih

/-- C5: on a freshly wrapped `responseWriter`, `WriteHeader(c1)` then `WriteHeader(c2)`
leaves `Status()` at `c1`.  For every sequence of `WriteHeader` calls `Status()` is the
code of the first call (0 when there is none) and the embedded writer is in the state that
exactly one `WriteHeader`, with the first code, puts it in (its own state when there is
none): a writer that records its calls has received that one call.  A `WriteHeader` on a
writer whose `wroteHeader` is true changes nothing, and no later sequence of calls changes
its recorded status. -/
theorem responseWriter_first_WriteHeader_wins {W : Type} [http.ResponseWriter W] (w : W) :
    (∀ c1 c2 : Int, (((wrapResponseWriter w).WriteHeader c1).WriteHeader c2).Status = c1) ∧
    (∀ codes : List Int,
      (http.replay (wrapResponseWriter w) (codes.map http.Call.WriteHeader)).Status =
        codes.head?.getD 0 ∧
      (http.replay (wrapResponseWriter w) (codes.map http.Call.WriteHeader)).ResponseWriter =
        (codes.head?.map (http.ResponseWriter.WriteHeader w)).getD w ∧
      (http.replay (wrapResponseWriter w) (codes.map http.Call.WriteHeader)).wroteHeader =
        !codes.isEmpty) ∧
    (∀ codes : List Int,
      (http.replay (wrapResponseWriter (http.Recorder.mk []))
          (codes.map http.Call.WriteHeader)).ResponseWriter.calls =
        (codes.head?.map http.Call.WriteHeader).toList) ∧
    (∀ (inner : W) (status code : Int),
      (responseWriter.mk inner status true).WriteHeader code =
        responseWriter.mk inner status true) ∧
    (∀ (inner : W) (status : Int) (calls : List http.Call),
      (http.replay (responseWriter.mk inner status true) calls).Status = status) := by
  refine ⟨?_, ?_, ?_, responseWriter_WriteHeader_wrote,
    fun inner status calls => (replay_wrote_status calls inner status).1⟩
  · intro c1 c2
    simp [wrapResponseWriter, responseWriter.WriteHeader, responseWriter.Status]
  · intro codes
    cases codes with
    | nil => exact ⟨rfl, rfl, rfl⟩
    | cons c cs =>
      simp only [List.map_cons, http.replay, http.Call.on, http.ResponseWriter.WriteHeader,
        wrapResponseWriter, responseWriter.WriteHeader, Bool.not_false, if_true,
        replay_WriteHeaders_wrote, responseWriter.Status, List.head?_cons, Option.getD_some,
        Option.map_some', List.isEmpty_cons, Bool.not_false, and_self]
  · intro codes
    cases codes with
    | nil => rfl
    | cons c cs =>
      simp only [List.map_cons, http.replay, http.Call.on, http.ResponseWriter.WriteHeader,
        wrapResponseWriter, responseWriter.WriteHeader, Bool.not_false, if_true,
        replay_WriteHeaders_wrote, List.head?_cons, Option.map_some', Option.toList_some,
        List.nil_append]

/-! ## Properties of `logSeverity` -/

/-- C8: `logSeverity` gives every integer status code one severity: error from 400 on,
warning on 300..399, info on 200..299, debug below 200; with the listed values
199, 200, 204, 299, 300, 301, 399, 400, 404, 499, 500, 503 and 0. -/
theorem logSeverity_total (statusCode : Int) :
    (400 ≤ statusCode → logSeverity statusCode = Level.ErrorLevel) ∧
    (300 ≤ statusCode → statusCode ≤ 399 → logSeverity statusCode = Level.WarnLevel) ∧
    (200 ≤ statusCode → statusCode ≤ 299 → logSeverity statusCode = Level.InfoLevel) ∧
    (statusCode < 200 → logSeverity statusCode = Level.DebugLevel) ∧
    (logSeverity 199 = Level.DebugLevel ∧ logSeverity 200 = Level.InfoLevel ∧
     logSeverity 204 = Level.InfoLevel ∧ logSeverity 299 = Level.InfoLevel ∧
     logSeverity 300 = Level.WarnLevel ∧ logSeverity 301 = Level.WarnLevel ∧
     logSeverity 399 = Level.WarnLevel ∧ logSeverity 400 = Level.ErrorLevel ∧
     logSeverity 404 = Level.ErrorLevel ∧ logSeverity 499 = Level.ErrorLevel ∧
     logSeverity 500 = Level.ErrorLevel ∧ logSeverity 503 = Level.ErrorLevel ∧
     logSeverity 0 = Level.DebugLevel) := by
  refine ⟨?_, ?_, ?_, ?_, by decide⟩
  · intro h
    unfold logSeverity
    split_ifs <;> rfl
  · intro h1 h2
    unfold logSeverity
    split_ifs <;> first | rfl | omega
  · intro h1 h2
    unfold logSeverity
    split_ifs <;> first | rfl | omega
  · intro h
    unfold logSeverity
    split_ifs <;> first | rfl | omega

/-- Witness of C8 at the codes 404, 301, 204 and -1. -/
theorem logSeverity_total_witness :
    logSeverity 404 = Level.ErrorLevel ∧ logSeverity 301 = Level.WarnLevel ∧
      logSeverity 204 = Level.InfoLevel ∧ logSeverity (-1) = Level.DebugLevel :=
  ⟨(logSeverity_total 404).1 (by decide),
   (logSeverity_total 301).2.1 (by decide) (by decide),
   (logSeverity_total 204).2.2.1 (by decide) (by decide),
   (logSeverity_total (-1)).2.2.2.1 (by decide)⟩

/-! ## Properties of `realIP` -/

theorem indexFrom_eq (sep : Char) (s : List Char) (i : Nat) :
    strings.indexFrom sep s i =
      if sep ∈ s then ((i + (s.takeWhile (fun c => c != sep)).length : Nat) : Int) else -1 := by
  induction s generalizing i with
  | nil => simp [strings.indexFrom]
  | cons c cs ih =>
    by_cases h : c = sep
    · subst h
      simp [strings.indexFrom, List.takeWhile]
    · have h2 : ¬ sep = c := fun e => h e.symm
      simp only [strings.indexFrom, h, if_false, ih, List.mem_cons, h2, false_or, List.takeWhile,
        bne_iff_ne, ne_eq, not_false_eq_true, decide_True, List.length_cons]
      split_ifs
      · have : (c != sep) = true := by simpa using h
        simp [this]
        omega
      · rfl

theorem cut_before_sep (sep : Char) (s : Str) :
    Str.upTo s (if strings.Index s sep == -1 then (s.length : Int) else strings.Index s sep) =
      s.takeWhile (fun c => c != sep) := by
  unfold strings.Index Str.upTo
  rw [indexFrom_eq]
  by_cases h : sep ∈ s
  · have hne : ¬ (((0 + (List.takeWhile (fun c => c != sep) s).length : Nat) : Int) = -1) := by
      omega
    simp only [h, if_true, beq_iff_eq, hne, if_false, Int.toNat_ofNat, Nat.zero_add]
    exact (List.prefix_iff_eq_take.mp (List.takeWhile_prefix _)).symm
  · simp only [h, if_false, beq_self_eq_true, if_true, Int.toNat_ofNat, List.take_length]
    symm
    rw [List.takeWhile_eq_self_iff]
    intro c hc
    simp only [bne_iff_ne, ne_eq]
    intro e
    exact h (e ▸ hc)

theorem Get_canonical_TrueClientIP (h : http.Header) :
    h.Get (http.CanonicalHeaderKey "True-Client-IP".toList) = h.Get "True-Client-IP".toList := by
  have e : http.CanonicalHeaderKey (http.CanonicalHeaderKey "True-Client-IP".toList) =
      http.CanonicalHeaderKey "True-Client-IP".toList := by decide
  simp only [http.Header.Get, e]

theorem Get_canonical_XRealIP (h : http.Header) :
    h.Get (http.CanonicalHeaderKey "X-Real-IP".toList) = h.Get "X-Real-IP".toList := by
  have e : http.CanonicalHeaderKey (http.CanonicalHeaderKey "X-Real-IP".toList) =
      http.CanonicalHeaderKey "X-Real-IP".toList := by decide
  simp only [http.Header.Get, e]

theorem Get_canonical_XForwardedFor (h : http.Header) :
    h.Get (http.CanonicalHeaderKey "X-Forwarded-For".toList) = h.Get "X-Forwarded-For".toList := by
  have e : http.CanonicalHeaderKey (http.CanonicalHeaderKey "X-Forwarded-For".toList) =
      http.CanonicalHeaderKey "X-Forwarded-For".toList := by decide
  simp only [http.Header.Get, e]

/-- The result of `realIP` in terms of the candidate: the candidate when `net.ParseIP`
accepts it, the empty string otherwise. -/
theorem realIP_eq_candidate (env : Env) (r : http.Request) :
    realIP env r =
      match clientIPCandidate r with
      | some ip => if env.parseIP ip then ip else []
      | none => [] := by
  unfold realIP clientIPCandidate
  simp only [Get_canonical_TrueClientIP, Get_canonical_XRealIP, Get_canonical_XForwardedFor,
    cut_before_sep]
  generalize r.Header.Get "True-Client-IP".toList = tcip
  generalize r.Header.Get "X-Real-IP".toList = xrip
  generalize r.Header.Get "X-Forwarded-For".toList = xff
  generalize hcut : List.takeWhile (fun c => c != ',') xff = hop
  by_cases h1 : tcip = []
  · by_cases h2 : xrip = []
    · by_cases h3 : xff = []
      · simp [h1, h2, h3]
      · by_cases h4 : hop = []
        · simp [h1, h2, h3, h4]
        · cases h5 : env.parseIP hop <;> simp [h1, h2, h3, h4, h5]
    · cases h5 : env.parseIP xrip <;> simp [h1, h2, h5]
  · cases h5 : env.parseIP tcip <;> simp [h1, h5]

/-- C6: `realIP` takes as candidate the first of `True-Client-IP`, `X-Real-IP`,
`X-Forwarded-For` that is present and non-empty (for the last one the part before the first
comma, the whole value when there is no comma) and returns it exactly when `net.ParseIP`
accepts it, the empty string otherwise.  When `net.ParseIP` accepts `1.2.3.4` the headers
`True-Client-IP: 1.2.3.4`, `X-Forwarded-For: 9.9.9.9, 8.8.8.8` resolve to `1.2.3.4`; when
it rejects `not-an-ip` the header `X-Forwarded-For: not-an-ip, 8.8.8.8` alone resolves to
the empty string.  `realIPHandler` hands the next stage the request with `RemoteAddr` set to
the result when it is non-empty, and the request as it is otherwise. -/
theorem realIP_candidate_validated (env : Env) (r : http.Request) (next : Handler)
    (hvalid : env.parseIP "1.2.3.4".toList = true)
    (hinvalid : env.parseIP "not-an-ip".toList = false) :
    (realIP env r =
      match clientIPCandidate r with
      | some ip => if env.parseIP ip then ip else []
      | none => []) ∧
    (realIP env
        { r with Header := headersOf [("True-Client-IP".toList, "1.2.3.4".toList),
                                      ("X-Forwarded-For".toList, "9.9.9.9, 8.8.8.8".toList)] } =
      "1.2.3.4".toList) ∧
    (realIP env
        { r with Header := headersOf [("X-Forwarded-For".toList, "not-an-ip, 8.8.8.8".toList)] } =
      []) ∧
    (realIP env r ≠ [] →
      realIPHandler env next r = next { r with RemoteAddr := realIP env r }) ∧
    (realIP env r = [] → realIPHandler env next r = next r) := by
  refine ⟨realIP_eq_candidate env r, ?_, ?_, ?_, ?_⟩
  · rw [realIP_eq_candidate]
    have hc : clientIPCandidate
        { r with Header := headersOf [("True-Client-IP".toList, "1.2.3.4".toList),
                                      ("X-Forwarded-For".toList, "9.9.9.9, 8.8.8.8".toList)] } =
        some "1.2.3.4".toList := by
      simp only [clientIPCandidate]
      decide
    rw [hc]
    show (if env.parseIP "1.2.3.4".toList = true then "1.2.3.4".toList else []) = _
    rw [hvalid]
    rfl
  · rw [realIP_eq_candidate]
    have hc : clientIPCandidate
        { r with Header := headersOf [("X-Forwarded-For".toList, "not-an-ip, 8.8.8.8".toList)] } =
        some "not-an-ip".toList := by
      simp only [clientIPCandidate]
      decide
    rw [hc]
    show (if env.parseIP "not-an-ip".toList = true then "not-an-ip".toList else []) = _
    rw [hinvalid]
    rfl
  · intro h
    simp only [realIPHandler, h, ne_eq, not_false_eq_true, if_true]
  · intro h
    simp only [realIPHandler, h, ne_eq, not_true_eq_false, if_false]

/-- Witness of C6 with the IPv4 parser and the headers `X-Real-IP: 203.0.113.7`. -/
theorem realIP_candidate_validated_witness :
    realIP sampleEnv { sampleRequest with
        Header := headersOf [("X-Real-IP".toList, "203.0.113.7".toList)] } =
        "203.0.113.7".toList ∧
      realIPHandler sampleEnv notFound { sampleRequest with
        Header := headersOf [("X-Real-IP".toList, "203.0.113.7".toList)] } =
        notFound { sampleRequest with
          Header := headersOf [("X-Real-IP".toList, "203.0.113.7".toList)],
          RemoteAddr := "203.0.113.7".toList } := by
  have h := realIP_candidate_validated sampleEnv
    { sampleRequest with Header := headersOf [("X-Real-IP".toList, "203.0.113.7".toList)] }
    notFound (by decide) (by decide)
  have e : realIP sampleEnv { sampleRequest with
        Header := headersOf [("X-Real-IP".toList, "203.0.113.7".toList)] } =
        "203.0.113.7".toList := by decide
  refine ⟨e, ?_⟩
  rw [h.2.2.2.1 (by rw [e]; decide), e]

/-- C7 as stated fails: with `True-Client-IP: garbage` and `X-Real-IP: 1.2.3.4` the code
returns the empty string, while the first valid IP literal in priority order is
`1.2.3.4`. -/
theorem realIP_does_not_fall_through :
    realIP sampleEnv { sampleRequest with
        Header := headersOf [("True-Client-IP".toList, "garbage".toList),
                             ("X-Real-IP".toList, "1.2.3.4".toList)] } = [] ∧
      firstValidIP sampleEnv { sampleRequest with
        Header := headersOf [("True-Client-IP".toList, "garbage".toList),
                             ("X-Real-IP".toList, "1.2.3.4".toList)] } = "1.2.3.4".toList := by
  decide

/-- C7, as the code has it: `realIP` validates one candidate only, that of the first
present non-empty header in the priority order.  A non-empty result is the first valid IP
literal of the three candidates; when the candidate is rejected by `net.ParseIP` the result
is empty whatever the headers of lower priority hold, as with `True-Client-IP: garbage`
and `X-Real-IP: 1.2.3.4`. -/
theorem realIP_validates_first_nonempty_only (env : Env) (r : http.Request) :
    (realIP env r ≠ [] → realIP env r = firstValidIP env r) ∧
    (∀ ip, clientIPCandidate r = some ip → env.parseIP ip = false → realIP env r = []) ∧
    (env.parseIP "garbage".toList = false →
      realIP env { r with
        Header := headersOf [("True-Client-IP".toList, "garbage".toList),
                             ("X-Real-IP".toList, "1.2.3.4".toList)] } = []) := by
  refine ⟨?_, ?_, ?_⟩
  · rw [realIP_eq_candidate]
    unfold clientIPCandidate firstValidIP
    generalize r.Header.Get "True-Client-IP".toList = tcip
    generalize r.Header.Get "X-Real-IP".toList = xrip
    generalize r.Header.Get "X-Forwarded-For".toList = xff
    generalize List.takeWhile (fun c => c != ',') xff = hop
    by_cases h1 : tcip = []
    · by_cases h2 : xrip = []
      · by_cases h3 : xff = []
        · simp [h1, h2, h3]
        · by_cases h4 : hop = []
          · simp [h1, h2, h3, h4]
          · have e : (hop != []) = true := by simpa using h4
            cases h5 : env.parseIP hop <;> simp [h1, h2, h3, h4, h5, e, List.find?]
      · have e : (xrip != []) = true := by simpa using h2
        cases h5 : env.parseIP xrip <;> simp [h1, h2, h5, e, List.find?]
    · have e : (tcip != []) = true := by simpa using h1
      cases h5 : env.parseIP tcip <;> simp [h1, h5, e, List.find?]
  · intro ip hc hp
    rw [realIP_eq_candidate, hc]
    simp [hp]
  · intro hp
    rw [realIP_eq_candidate]
    have hc : clientIPCandidate
        { r with Header := headersOf [("True-Client-IP".toList, "garbage".toList),
                                      ("X-Real-IP".toList, "1.2.3.4".toList)] } =
        some "garbage".toList := by
      simp only [clientIPCandidate]
      decide
    rw [hc]
    show (if env.parseIP "garbage".toList = true then "garbage".toList else []) = _
    rw [hp]
    rfl

/-- Witness of C7 with the IPv4 parser: `X-Forwarded-For: 198.51.100.2, 10.0.0.1` resolves
to its first hop, `True-Client-IP: garbage` before `X-Real-IP: 1.2.3.4` to nothing. -/
theorem realIP_validates_first_nonempty_only_witness :
    realIP sampleEnv { sampleRequest with
        Header := headersOf [("X-Forwarded-For".toList, "198.51.100.2, 10.0.0.1".toList)] } =
      firstValidIP sampleEnv { sampleRequest with
        Header := headersOf [("X-Forwarded-For".toList, "198.51.100.2, 10.0.0.1".toList)] } ∧
    realIP sampleEnv { sampleRequest with
        Header := headersOf [("True-Client-IP".toList, "garbage".toList),
                             ("X-Real-IP".toList, "1.2.3.4".toList)] } = [] :=
  ⟨(realIP_validates_first_nonempty_only sampleEnv { sampleRequest with
        Header := headersOf [("X-Forwarded-For".toList, "198.51.100.2, 10.0.0.1".toList)] }).1
      (by decide),
   (realIP_validates_first_nonempty_only sampleEnv sampleRequest).2.2 (by decide)⟩

/-! ## What the client receives -/

theorem response_WriteHeader_final (t : http.response) (c : Int) (h : t.status = none)
    (hc : http.finalCode c) : (http.response.WriteHeader t c).status = some c := by
  unfold http.finalCode at hc
  have h1 : ¬ (c < 100 ∨ c > 999) := by omega
  have h2 : ¬ (100 ≤ c ∧ c ≤ 199 ∧ c ≠ 101) := by omega
  simp [http.response.WriteHeader, h, h1, h2]

theorem response_WriteHeader_informational (t : http.response) (c : Int) (h : t.status = none)
    (hc : http.informationalCode c) : (http.response.WriteHeader t c).status = none := by
  unfold http.informationalCode at hc
  have h1 : ¬ (c < 100 ∨ c > 999) := by omega
  simp [http.response.WriteHeader, h, h1, hc]

theorem response_status_fixed (calls : List http.Call) (t : http.response) (c : Int)
    (h : t.status = some c) : (http.replay t calls).status = some c := by
  induction calls generalizing t with
  | nil => exact h
  | cons x xs ih =>
    apply ih
    cases x <;>
      simp [http.Call.on, http.ResponseWriter.WriteHeader, http.ResponseWriter.Write,
        http.response.WriteHeader, http.response.Write, h]

theorem sentStatus_nil : http.sentStatus [] = 200 := rfl

theorem sentStatus_WriteHeader (c : Int) (rest : List http.Call) (hc : http.finalCode c) :
    http.sentStatus (http.Call.WriteHeader c :: rest) = c := by
  unfold http.sentStatus
  rw [show http.replay http.response.fresh (http.Call.WriteHeader c :: rest) =
    http.replay (http.response.WriteHeader http.response.fresh c) rest from rfl,
    response_status_fixed rest _ c (response_WriteHeader_final _ c rfl hc)]
  rfl

theorem sentStatus_Write (data : Bytes) (rest : List http.Call) :
    http.sentStatus (http.Call.Write data :: rest) = 200 := by
  unfold http.sentStatus
  rw [show http.replay http.response.fresh (http.Call.Write data :: rest) =
    http.replay (http.response.Write http.response.fresh data) rest from rfl,
    response_status_fixed rest _ 200 rfl]
  rfl

theorem writesOf_status (calls : List http.Call) (t : http.response) (h : t.status = none) :
    (http.replay t (http.writesOf calls)).status.getD 200 = 200 := by
  induction calls generalizing t with
  | nil => simp [http.writesOf, http.replay, h]
  | cons x xs ih =>
    cases x with
    | WriteHeader code => exact ih t h
    | Write data =>
      show (http.replay (http.response.Write t data) (http.writesOf xs)).status.getD 200 = 200
      rw [response_status_fixed (http.writesOf xs) _ 200 (by simp [http.response.Write, h])]
      rfl

theorem sentStatus_informational (c : Int) (rest : List http.Call)
    (hc : http.informationalCode c) :
    http.sentStatus (http.Call.WriteHeader c :: http.writesOf rest) = 200 := by
  show (http.replay (http.response.WriteHeader http.response.fresh c)
    (http.writesOf rest)).status.getD 200 = 200
  exact writesOf_status rest _
    (response_WriteHeader_informational http.response.fresh c rfl hc)

theorem replay_snoc {W : Type} [http.ResponseWriter W] (w : W) (xs : List http.Call)
    (x : http.Call) : http.replay w (xs ++ [x]) = x.on (http.replay w xs) := by
  rw [replay_append]
  rfl

/-- Once its header is written the `responseWriter` forwards the `Write` calls only. -/
theorem replay_wrote_calls (calls : List http.Call) (inner : http.Recorder) (status : Int) :
    (http.replay (responseWriter.mk inner status true) calls).ResponseWriter.calls =
      inner.calls ++ http.writesOf calls := by
  induction calls generalizing inner with
  | nil => simp [http.replay, http.writesOf]
  | cons c cs ih =>
    cases c with
    | WriteHeader code =>
      simp only [http.replay, http.Call.on, http.ResponseWriter.WriteHeader,
        responseWriter_WriteHeader_wrote, http.writesOf]
      exact ih inner
    | Write data =>
      simp only [http.replay, http.Call.on, http.ResponseWriter.Write, responseWriter.Write,
        http.writesOf]
      rw [ih]
      simp

theorem replay_calls_extend (calls : List http.Call) (rw : responseWriter http.Recorder) :
    ∃ more, (http.replay rw calls).ResponseWriter.calls = rw.ResponseWriter.calls ++ more := by
  induction calls generalizing rw with
  | nil => exact ⟨[], by simp [http.replay]⟩
  | cons c cs ih =>
    obtain ⟨more, h⟩ := ih (c.on rw)
    cases c with
    | WriteHeader code =>
      by_cases hw : rw.wroteHeader = true
      · refine ⟨more, ?_⟩
        rw [show http.replay rw (http.Call.WriteHeader code :: cs) =
          http.replay ((http.Call.WriteHeader code).on rw) cs from rfl, h]
        simp [http.Call.on, http.ResponseWriter.WriteHeader, responseWriter.WriteHeader, hw]
      · refine ⟨http.Call.WriteHeader code :: more, ?_⟩
        rw [show http.replay rw (http.Call.WriteHeader code :: cs) =
          http.replay ((http.Call.WriteHeader code).on rw) cs from rfl, h]
        simp [http.Call.on, http.ResponseWriter.WriteHeader, responseWriter.WriteHeader, hw]
    | Write data =>
      refine ⟨http.Call.Write data :: more, ?_⟩
      rw [show http.replay rw (http.Call.Write data :: cs) =
        http.replay ((http.Call.Write data).on rw) cs from rfl, h]
      simp [http.Call.on, http.ResponseWriter.Write, responseWriter.Write]

/-- After a first `WriteHeader` the `responseWriter` of `loggerHandler` forwards that call
and then the `Write` calls only: every later `WriteHeader` is swallowed. -/
theorem forwarded_WriteHeader (c : Int) (rest : List http.Call) :
    forwarded (http.Call.WriteHeader c :: rest) =
      http.Call.WriteHeader c :: http.writesOf rest := by
  unfold forwarded
  simp only [http.replay, http.Call.on, http.ResponseWriter.WriteHeader, wrapResponseWriter,
    responseWriter.WriteHeader, Bool.not_false, if_true, replay_wrote_calls]
  rfl

theorem forwarded_Write (data : Bytes) (rest : List http.Call) :
    ∃ more, forwarded (http.Call.Write data :: rest) = http.Call.Write data :: more := by
  unfold forwarded
  obtain ⟨more, h⟩ := replay_calls_extend rest
    ((http.Call.Write data).on (wrapResponseWriter (http.Recorder.mk [])))
  exact ⟨more, h⟩

/-! ## Properties of `loggerHandler` -/

theorem captureBody_ctxLogger (r : http.Request) : (captureBody r).2.ctxLogger = r.ctxLogger := by
  unfold captureBody
  cases r.Body <;> rfl

/-- The outcome of `loggerHandler` on a request that is not bypassed, when the next stage
returns. -/
theorem loggerHandler_returns (env : Env) (filter : Option (http.Request → Bool))
    (next : Handler) (r : http.Request) (requestID : Str)
    (hf : bypassed filter r = false) (hctx : r.ctxLogger = some requestID)
    (hret : (next (captureBody r).2).panic = none) :
    loggerHandler env filter next r =
      { calls := forwarded (next (captureBody r).2).calls,
        r := (next (captureBody r).2).r,
        log := (next (captureBody r).2).log ++
          (formatReqBody env (captureBody r).2 (captureBody r).1).2 ++
          [{ level := logSeverity ((http.firstWriteHeader (next (captureBody r).2).calls).getD 0),
             requestID := requestID,
             msg := "http request".toList,
             err := none,
             stack := false,
             fields := some
               { RemoteIP := (next (captureBody r).2).r.RemoteAddr,
                 Host := (next (captureBody r).2).r.Host,
                 UserAgent := (next (captureBody r).2).r.UserAgent,
                 Method := (next (captureBody r).2).r.Method,
                 Path := (next (captureBody r).2).r.Path,
                 Body := (formatReqBody env (captureBody r).2 (captureBody r).1).1,
                 StatusCode := (http.firstWriteHeader (next (captureBody r).2).calls).getD 0,
                 Latency := env.elapsedNanos / 10000 } }],
        panic := none } := by
  have hc : (captureBody r).2.ctxLogger = some requestID := by
    rw [captureBody_ctxLogger, hctx]
  simp only [loggerHandler, hf, Bool.false_eq_true, if_false, hret, logCtx, hc,
    responseWriter.Status, wrapResponseWriter, replay_wrap_status, forwarded]

/-- The parts of the outcome of `loggerHandler` that do not depend on the logger of the
context, on a request that is not bypassed, when the next stage returns. -/
theorem loggerHandler_returns_parts (env : Env) (filter : Option (http.Request → Bool))
    (next : Handler) (r : http.Request)
    (hf : bypassed filter r = false)
    (hret : (next (captureBody r).2).panic = none) :
    (loggerHandler env filter next r).calls = forwarded (next (captureBody r).2).calls ∧
    (loggerHandler env filter next r).r = (next (captureBody r).2).r ∧
    (loggerHandler env filter next r).panic = none ∧
    (next (captureBody r).2).log <+: (loggerHandler env filter next r).log := by
  simp only [loggerHandler, hf, Bool.false_eq_true, if_false, hret, forwarded]
  refine ⟨trivial, trivial, trivial, ?_⟩
  rw [List.append_assoc]
  exact List.prefix_append _ _

/-- The outcome of `loggerHandler` on a request that is not bypassed, when the next stage
panics: the panic passes through and nothing is logged. -/
theorem loggerHandler_panics (env : Env) (filter : Option (http.Request → Bool))
    (next : Handler) (r : http.Request) (rvr : PanicValue)
    (hf : bypassed filter r = false)
    (hp : (next (captureBody r).2).panic = some rvr) :
    loggerHandler env filter next r =
      { calls := forwarded (next (captureBody r).2).calls,
        r := (next (captureBody r).2).r,
        log := (next (captureBody r).2).log,
        panic := some rvr } := by
  simp only [loggerHandler, hf, Bool.false_eq_true, if_false, hp, forwarded]

/-- C3 as stated fails: `healthcheckHandler` answers `GET /status` with a body and no
`WriteHeader`; the log record holds the status code 0 while the client receives 200, behind
`loggerHandler` alone and in the pipeline of `main`. -/
theorem loggerHandler_status_not_sent_status :
    (accessRecords (loggerHandler sampleEnv (some mainFilter) healthcheckHandler
        tracedRequest).log).map (fun f => f.StatusCode) = [0] ∧
      http.sentStatus (loggerHandler sampleEnv (some mainFilter) healthcheckHandler
        tracedRequest).calls = 200 ∧
      (accessRecords (mainHandler sampleEnv healthcheckHandler
        { sampleRequest with Method := "GET".toList, Path := "/status".toList }).log).map
          (fun f => f.StatusCode) = [0] ∧
      http.sentStatus (mainHandler sampleEnv healthcheckHandler
        { sampleRequest with Method := "GET".toList, Path := "/status".toList }).calls = 200 := by
  decide

/-- C3, as the code has it: for a request that is not bypassed and a next stage that
returns, the `StatusCode` of the log record is the code of the first `WriteHeader` call of
the next stage on the writer it is given, and 0 when it makes none.  It is the status the
client receives when the first call of the next stage is a `WriteHeader` with a final code
(101, or 200..999).  When the first call is a `WriteHeader` with an informational code
(100..199 other than 101) the record holds that code, every later `WriteHeader` is swallowed
by the `responseWriter` and the client receives 200.  When the next stage makes no call or
writes the body first, the client receives 200, the record holding 0 in the first case. -/
theorem loggerHandler_records_first_WriteHeader (env : Env)
    (filter : Option (http.Request → Bool)) (next : Handler) (r : http.Request)
    (requestID : Str)
    (hf : bypassed filter r = false) (hctx : r.ctxLogger = some requestID)
    (hret : (next (captureBody r).2).panic = none) :
    (∃ entry fields,
      (loggerHandler env filter next r).log.getLast? = some entry ∧
      entry.fields = some fields ∧
      fields.StatusCode = (http.firstWriteHeader (next (captureBody r).2).calls).getD 0) ∧
    (∀ c rest, (next (captureBody r).2).calls = http.Call.WriteHeader c :: rest →
      http.finalCode c →
      (http.firstWriteHeader (next (captureBody r).2).calls).getD 0 = c ∧
      http.sentStatus (loggerHandler env filter next r).calls = c) ∧
    (∀ c rest, (next (captureBody r).2).calls = http.Call.WriteHeader c :: rest →
      http.informationalCode c →
      (http.firstWriteHeader (next (captureBody r).2).calls).getD 0 = c ∧
      (loggerHandler env filter next r).calls =
        http.Call.WriteHeader c :: http.writesOf rest ∧
      http.sentStatus (loggerHandler env filter next r).calls = 200) ∧
    ((next (captureBody r).2).calls = [] →
      (http.firstWriteHeader (next (captureBody r).2).calls).getD 0 = 0 ∧
      http.sentStatus (loggerHandler env filter next r).calls = 200) ∧
    (∀ data rest, (next (captureBody r).2).calls = http.Call.Write data :: rest →
      (http.firstWriteHeader (next (captureBody r).2).calls).getD 0 =
        (http.firstWriteHeader rest).getD 0 ∧
      http.sentStatus (loggerHandler env filter next r).calls = 200) := by
  rw [loggerHandler_returns env filter next r requestID hf hctx hret]
  refine ⟨⟨_, _, List.getLast?_concat _, rfl, rfl⟩, ?_, ?_, ?_, ?_⟩
  · intro c rest h hc
    simp only [h, forwarded_WriteHeader, sentStatus_WriteHeader _ _ hc, http.firstWriteHeader,
      Option.getD_some, and_self]
  · intro c rest h hc
    simp only [h, forwarded_WriteHeader, sentStatus_informational _ _ hc,
      http.firstWriteHeader, Option.getD_some, and_self]
  · intro h
    simp only [h, http.firstWriteHeader, Option.getD_none, true_and]
    rfl
  · intro data rest h
    obtain ⟨more, hm⟩ := forwarded_Write data rest
    simp only [h, hm, sentStatus_Write, http.firstWriteHeader, and_self]

/-- Witness of C3: a next stage that answers 404 on `GET /status`. -/
theorem loggerHandler_records_first_WriteHeader_witness :
    (accessRecords (loggerHandler sampleEnv (some mainFilter) notFound
        tracedRequest).log).map (fun f => f.StatusCode) = [404] ∧
      http.sentStatus (loggerHandler sampleEnv (some mainFilter) notFound
        tracedRequest).calls = 404 :=
  ⟨by decide,
   ((loggerHandler_records_first_WriteHeader sampleEnv (some mainFilter) notFound
      tracedRequest "id-1".toList (by decide) (by decide) (by decide)).2.1
      404 [http.Call.Write [52, 48, 52]] (by decide) (Or.inr ⟨by decide, by decide⟩)).2⟩

theorem captureBody_some (r : http.Request) (body : io.Reader) (hb : r.Body = some body) :
    captureBody r = (body.unread, { r with Body := some (io.NopCloser body.unread) }) := by
  simp only [captureBody, hb, io.ReadAll]

theorem captureBody_intact (r : http.Request) (b : Bytes)
    (hb : r.Body = some { unread := b, failing := false }) : captureBody r = (b, r) := by
  rw [captureBody_some r _ hb]
  cases r
  simp only [io.NopCloser] at *
  rw [hb]

/-- When the body stream ends in a read error after the bytes `b`, the error is dropped:
the captured bytes are `b` and the next stage gets a body that yields `b` and then
end-of-file. -/
theorem captureBody_drops_read_error (r : http.Request) (b : Bytes)
    (hb : r.Body = some { unread := b, failing := true }) :
    (captureBody r).1 = b ∧
      (captureBody r).2.Body = some { unread := b, failing := false } := by
  rw [captureBody_some r _ hb]
  exact ⟨rfl, rfl⟩

/-- C9: for a request that is not bypassed and whose body consists of the bytes `b`, the
bytes `loggerHandler` captures are `b` and the request on which the next stage is run is the
incoming request, with a body that yields `b` from its start to its end.  For every next
stage the outcome is built from what the next stage does on that request: its calls, passed
through the `responseWriter`, the state it leaves the request in, its panic, and its log
entries before those of `loggerHandler`.  When the next stage returns, the one entry
`loggerHandler` adds after those of `formatReqBody` is the record whose `Body` is
`formatReqBody` of `b`; when it panics nothing is added.  A next stage that writes back what
it reads from its body writes `b`.  For a bypassed request the outcome is that of the next
stage on the request as it came: no body is read and nothing is logged by
`loggerHandler`. -/
theorem loggerHandler_body_round_trip (env : Env) (filter : Option (http.Request → Bool))
    (r : http.Request) (b : Bytes)
    (hf : bypassed filter r = false)
    (hb : r.Body = some { unread := b, failing := false }) :
    (captureBody r).1 = b ∧
    (captureBody r).2 = r ∧
    io.ReadAll { unread := b, failing := false } =
      (b, false, { unread := [], failing := false }) ∧
    (∀ next : Handler,
      (loggerHandler env filter next r).calls = forwarded (next r).calls ∧
      (loggerHandler env filter next r).r = (next r).r ∧
      (loggerHandler env filter next r).panic = (next r).panic ∧
      (next r).log <+: (loggerHandler env filter next r).log) ∧
    (∀ (next : Handler) (requestID : Str), r.ctxLogger = some requestID →
      (next r).panic = none →
      ∃ entry fields,
        (loggerHandler env filter next r).log =
          (next r).log ++ (formatReqBody env r b).2 ++ [entry] ∧
        entry.fields = some fields ∧
        fields.Body = (formatReqBody env r b).1) ∧
    (∀ (next : Handler) (rvr : PanicValue), (next r).panic = some rvr →
      (loggerHandler env filter next r).log = (next r).log) ∧
    (loggerHandler env filter echoBody r).calls = [http.Call.Write b] ∧
    (∀ (next : Handler) (r2 : http.Request), bypassed filter r2 = true →
      loggerHandler env filter next r2 = next r2) := by
  have hcap := captureBody_intact r b hb
  have h1 : (captureBody r).1 = b := by rw [hcap]
  have h2 : (captureBody r).2 = r := by rw [hcap]
  refine ⟨h1, h2, rfl, ?_, ?_, ?_, ?_, ?_⟩
  · intro next
    cases hp : (next r).panic with
    | none =>
      have hp2 : (next (captureBody r).2).panic = none := by rw [h2, hp]
      have hparts := loggerHandler_returns_parts env filter next r hf hp2
      rw [h2] at hparts
      exact hparts
    | some rvr =>
      have hp2 : (next (captureBody r).2).panic = some rvr := by rw [h2, hp]
      rw [loggerHandler_panics env filter next r rvr hf hp2, h2]
      exact ⟨rfl, rfl, rfl, List.prefix_refl _⟩
  · intro next requestID hctx hret
    have hret2 : (next (captureBody r).2).panic = none := by rw [h2, hret]
    rw [loggerHandler_returns env filter next r requestID hf hctx hret2, h1, h2]
    exact ⟨_, _, rfl, rfl, rfl⟩
  · intro next rvr hp
    have hp2 : (next (captureBody r).2).panic = some rvr := by rw [h2, hp]
    rw [loggerHandler_panics env filter next r rvr hf hp2, h2]
  · have e : echoBody r =
        { calls := [http.Call.Write b],
          r := { r with Body := some { unread := [], failing := false } },
          log := [], panic := none } := by
      simp only [echoBody, hb, io.ReadAll]
    have hp2 : (echoBody (captureBody r).2).panic = none := by rw [h2, e]
    simp only [loggerHandler, hf, Bool.false_eq_true, if_false, hp2, h2, e]
    rfl
  · intro next r2 h
    simp only [loggerHandler, h, if_true]

/-- Witness of C9: the webhook request with the body `[123, 125]` through the logger of
`main`, before a next stage that answers 404 and before one that writes its body back. -/
theorem loggerHandler_body_round_trip_witness :
    (loggerHandler sampleEnv (some mainFilter) notFound sampleRequest).r =
        (notFound sampleRequest).r ∧
      (loggerHandler sampleEnv (some mainFilter) echoBody sampleRequest).calls =
        [http.Call.Write [123, 125]] :=
  ⟨((loggerHandler_body_round_trip sampleEnv (some mainFilter) sampleRequest [123, 125]
      (by decide) rfl).2.2.2.1 notFound).2.1,
   (loggerHandler_body_round_trip sampleEnv (some mainFilter) sampleRequest [123, 125]
      (by decide) rfl).2.2.2.2.2.2.1⟩

/-! ## Properties of `recoverHandler` -/

theorem recoverHandler_panic_cases (next : Handler) (r : http.Request) :
    (recoverHandler next r).panic = none ∨
      (recoverHandler next r).panic = some PanicValue.ErrAbortHandler := by
  unfold recoverHandler
  cases hp : (next r).panic with
  | none => simp [hp]
  | some rvr =>
    by_cases hv : rvr = PanicValue.ErrAbortHandler
    · simp [hp, hv]
    · simp [hp, hv]

/-- C4 as stated fails: a terminal handler that has written the header 200 before it
panics gets no 500 response; the client receives 200, behind `recoverHandler` alone and
in the pipeline of `main`. -/
theorem recoverHandler_no_500_after_header :
    http.sentStatus (recoverHandler headerThenPanic tracedRequest).calls = 200 ∧
      http.sentStatus (mainHandler sampleEnv headerThenPanic sampleRequest).calls = 200 := by
  decide

/-- C4, as the code has it: when the terminal handler panics with a value other than
`http.ErrAbortHandler`, `recoverHandler` returns normally, logs exactly one entry, of error
severity and with a stack trace, and issues exactly one `WriteHeader(500)`, after the calls
of the terminal handler; the client receives 500 when the terminal handler had made no call
on the writer before it panicked, and the status of the terminal handler when its first
call was a `WriteHeader` with a final code (101, or 200..999), both directly and through
the `responseWriter` of `loggerHandler`.  When the value is `http.ErrAbortHandler` the
outcome is that of the terminal handler: nothing is logged, no `WriteHeader` is issued and
the same value is raised again. -/
theorem recoverHandler_recovers (next : Handler) (r : http.Request) (requestID : Str)
    (rvr : PanicValue)
    (hctx : r.ctxLogger = some requestID) (hp : (next r).panic = some rvr) :
    (rvr ≠ PanicValue.ErrAbortHandler →
      (recoverHandler next r).panic = none ∧
      (recoverHandler next r).calls = (next r).calls ++ [http.Call.WriteHeader 500] ∧
      (recoverHandler next r).log = (next r).log ++
        [{ level := Level.ErrorLevel, requestID := requestID, msg := "panic recover".toList,
           err := some rvr.errorText, stack := true, fields := none }] ∧
      ((next r).calls = [] →
        http.sentStatus (recoverHandler next r).calls = 500 ∧
        http.sentStatus (forwarded (recoverHandler next r).calls) = 500) ∧
      (∀ c rest, (next r).calls = http.Call.WriteHeader c :: rest → http.finalCode c →
        http.sentStatus (recoverHandler next r).calls = c ∧
        http.sentStatus (forwarded (recoverHandler next r).calls) = c)) ∧
    (rvr = PanicValue.ErrAbortHandler →
      recoverHandler next r = next r ∧
      (recoverHandler next r).panic = some PanicValue.ErrAbortHandler) := by
  constructor
  · intro hv
    have e : recoverHandler next r =
        { calls := (next r).calls ++ [http.Call.WriteHeader 500],
          r := (next r).r,
          log := (next r).log ++
            [{ level := Level.ErrorLevel, requestID := requestID, msg := "panic recover".toList,
               err := some rvr.errorText, stack := true, fields := none }],
          panic := none } := by
      simp only [recoverHandler, hp, hv, if_false, logCtx, hctx]
    rw [e]
    refine ⟨rfl, rfl, rfl, ?_, ?_⟩
    · intro hc
      simp only [hc, List.nil_append]
      exact ⟨by decide, by decide⟩
    · intro c rest hc hfin
      simp only [hc, List.cons_append, forwarded_WriteHeader, sentStatus_WriteHeader _ _ hfin,
        and_self]
  · intro hv
    have e : recoverHandler next r = next r := by
      simp only [recoverHandler, hp, hv, if_true]
    rw [e, hp, hv]
    exact ⟨rfl, rfl⟩

/-- Witness of C4: the handler that panics at once, behind `recoverHandler`, on a request
whose context carries a logger. -/
theorem recoverHandler_recovers_witness :
    (recoverHandler panicking tracedRequest).panic = none ∧
      http.sentStatus (recoverHandler panicking tracedRequest).calls = 500 :=
  ⟨((recoverHandler_recovers panicking tracedRequest "id-1".toList
      (PanicValue.value "boom".toList) rfl rfl).1 (by decide)).1,
   (((recoverHandler_recovers panicking tracedRequest "id-1".toList
      (PanicValue.value "boom".toList) rfl rfl).1 (by decide)).2.2.2.1 rfl).1⟩

/-! ## The handler of `main` -/

theorem loggerHandler_panic (env : Env) (filter : Option (http.Request → Bool))
    (next : Handler) (r : http.Request) :
    ∃ r1, (loggerHandler env filter next r).panic = (next r1).panic := by
  by_cases hf : bypassed filter r = true
  · exact ⟨r, by simp only [loggerHandler, hf, if_true]⟩
  · refine ⟨(captureBody r).2, ?_⟩
    simp only [loggerHandler, hf, Bool.false_eq_true, if_false]
    cases hp : (next (captureBody r).2).panic <;> rfl

theorem requestIDHandler_panic (env : Env) (next : Handler) (r : http.Request) :
    ∃ r1, (requestIDHandler env next r).panic = (next r1).panic :=
  ⟨_, rfl⟩

theorem realIPHandler_panic (env : Env) (next : Handler) (r : http.Request) :
    ∃ r1, (realIPHandler env next r).panic = (next r1).panic :=
  ⟨_, rfl⟩

/-- C2 as stated fails: with a router that panics, the handler of `main` is not the
nesting in list order.  In the code the recovery is logged first and the logger, which is
outside of `recoverHandler`, writes its record for the status 500 afterwards; with
`recoverHandler` outermost the panic would pass through the logger and leave no record. -/
theorem mainHandler_not_list_order :
    (mainHandler sampleEnv panicking sampleRequest).log.map (fun e => e.msg) =
        ["panic recover".toList, "http request".toList] ∧
      (accessRecords (mainHandler sampleEnv panicking sampleRequest).log).map
        (fun f => f.StatusCode) = [500] ∧
      accessRecords (nestInListOrder panicking
        [recoverHandler, loggerHandler sampleEnv (some mainFilter), realIPHandler sampleEnv,
         requestIDHandler sampleEnv] sampleRequest).log = [] ∧
      mainHandler sampleEnv panicking sampleRequest ≠
        nestInListOrder panicking
          [recoverHandler, loggerHandler sampleEnv (some mainFilter), realIPHandler sampleEnv,
           requestIDHandler sampleEnv] sampleRequest := by
  decide

/-- C2, as the code has it: in the handler that `main` builds a request passes through the
stages in the outer-to-inner order `requestIDHandler`, `realIPHandler`, `loggerHandler`,
`recoverHandler`, router.  `recoverHandler` is the innermost middleware, directly around
the router: a panic of the router is observed by it, so that the handler of `main` returns
normally or raises `http.ErrAbortHandler` again. -/
theorem mainHandler_order (env : Env) (router : Handler) :
    mainHandler env router =
      requestIDHandler env (realIPHandler env
        (loggerHandler env (some mainFilter) (recoverHandler router))) ∧
    ∀ r, (mainHandler env router r).panic = none ∨
      (mainHandler env router r).panic = some PanicValue.ErrAbortHandler := by
  refine ⟨rfl, ?_⟩
  intro r
  have h : ∃ r1, (mainHandler env router r).panic = (recoverHandler router r1).panic := by
    obtain ⟨r1, h1⟩ := requestIDHandler_panic env
      (realIPHandler env (loggerHandler env (some mainFilter) (recoverHandler router))) r
    obtain ⟨r2, h2⟩ := realIPHandler_panic env
      (loggerHandler env (some mainFilter) (recoverHandler router)) r1
    obtain ⟨r3, h3⟩ := loggerHandler_panic env (some mainFilter) (recoverHandler router) r2
    exact ⟨r3, h1.trans (h2.trans h3)⟩
  obtain ⟨r1, h1⟩ := h
  rw [h1]
  exact recoverHandler_panic_cases router r1

/-! ## `extractCustomerData` -/

/-- C10, the code at the failing input: the query text `Nomor ID: 1234 Nama:` has four
fields, passes the format check `len(parts) < 4` and the integer parse, and the index
expression `parts[4]` panics; `dialogflowWebhookHandler` panics with it, and in the pipeline
of `main` the client receives 500 from `recoverHandler`, not 200. -/
theorem extractCustomerData_index_out_of_range :
    strings.Fields "Nomor ID: 1234 Nama:".toList =
        ["Nomor".toList, "ID:".toList, "1234".toList, "Nama:".toList] ∧
      strconv.Atoi "1234".toList = .ok 1234 ∧
      extractCustomerData "Nomor ID: 1234 Nama:".toList =
        .error (PanicValue.error "runtime error: index out of range".toList) ∧
      (dialogflowWebhookHandler sampleEnv sampleRequest).panic =
        some (PanicValue.error "runtime error: index out of range".toList) ∧
      http.sentStatus
        (mainHandler sampleEnv (dialogflowWebhookHandler sampleEnv) sampleRequest).calls = 500 :=
  ⟨by decide, rfl, rfl, by decide, by decide⟩

end Dialogflow
